import Mathlib

/-!
Verification of the SSMiSS scan/approach controller against its design
specification.  The Python source is shallowly embedded: numpy float
arrays become lists of rationals, the pure helper `utils.stepData`
becomes a Lean function, the stateful acquisition buffer and the
approach debounce logic become explicit state-passing functions, and the
straight-line hardware-facing bodies (`ScanLineThread.run`,
`approachUI.__startApproach`, `ApproachThread.run`,
`ApproachThread.endApproachStage`) become traces of the externally
visible actions they perform, in program order.
-/

namespace SSMiSS

/-! ## WaveformPlanner: `utils.stepData`

`stepData` builds the x waveform with
`np.repeat(np.linspace(lowervx, uppervx, xsteps), settle * data_rate)`
followed by `np.concatenate((linx, np.flip(linx)))`, and the y values
with `np.linspace(lowervy, uppervy, ysteps)`.  numpy converts the float
repeat count `settle * data_rate` to an integer by truncation toward
zero, raises on a negative sample count for `linspace`, and raises on a
negative repeat count; those failure exits are modelled as `none`. -/

/-- Truncation toward zero, numpy's float-to-integer conversion for the
repeat count of `np.repeat`. -/
def ratTrunc (q : ℚ) : ℤ := if 0 ≤ q then ⌊q⌋ else ⌈q⌉

/-- `np.linspace l u n`: `n` evenly spaced values from `l` to `u`
(`n = 1` gives `[l]`, `n = 0` gives `[]`). -/
def linspace (l u : ℚ) (n : ℕ) : List ℚ :=
  if n ≤ 1 then List.replicate n l
  else (List.range n).map (fun i : ℕ => l + (u - l) * (i : ℚ) / ((n : ℚ) - 1))

/-- `utils.stepData`.  Returns `none` exactly on the numpy error exits:
a negative x or y sample count, or a negative repeat count. -/
def stepData (lowervx uppervx : ℚ) (xsteps : ℤ) (lowervy uppervy : ℚ) (ysteps : ℤ)
    (settle data_rate : ℚ) : Option (List ℚ × List ℚ) :=
  if xsteps < 0 then none
  else if ratTrunc (settle * data_rate) < 0 then none
  else if ysteps < 0 then none
  else
    let reps := (ratTrunc (settle * data_rate)).toNat
    let lin := linspace lowervx uppervx xsteps.toNat
    let fw := lin.flatMap (List.replicate reps)
    some (fw ++ fw.reverse, linspace lowervy uppervy ysteps.toNat)

/-! ## AcquisitionBuffer: `scanUI.dumpData`

`scanUI.data` is a channels × time numpy array; we model it as the
channel count together with the list of time-columns.  `dumpData 0`
(the default argument) replaces the buffer with an empty
channels × 0 array and returns `None`; `dumpData chunk` for
`chunk > 0` returns the first `chunk` time-columns (numpy slicing
clamps, so fewer may come back) and keeps the rest. -/

/-- The acquisition buffer `scanUI.data`: channel count and time-columns. -/
structure Buffer where
  channels : ℕ
  cols : List (List ℚ)
deriving DecidableEq, Repr

/-- `scanUI.dumpData`: first component is the returned value
(`none` models Python's `None`), second is the buffer afterwards. -/
def dumpData (b : Buffer) (chunk : ℕ) : Option Buffer × Buffer :=
  if chunk = 0 then (none, ⟨b.channels, []⟩)
  else (some ⟨b.channels, b.cols.take chunk⟩, ⟨b.channels, b.cols.drop chunk⟩)

/-! ## Approach debounce: `approachUI.__checkThreshold` / `__dataLoop`

Each data-timer tick reads the newest chunk, and `__checkThreshold`
compares only the latest derivative `der_arr[-1]` against the running
stage's threshold.  `__dataLoop` skips the check entirely once the
consecutive counter sits at `consec_req`. -/

/-- `approachUI.__checkThreshold` acting on the counter `self.consec`:
returns the new counter and whether `endApproachStage` was called. -/
def checkThreshold (thr d : ℚ) (req consec : ℕ) : ℕ × Bool :=
  if d < thr then (consec + 1, consec + 1 == req)
  else (0, false)

/-- The threshold part of `approachUI.__dataLoop`: the check only runs
while `self.consec != self.av.consec_req`. -/
def dataLoopCheck (thr d : ℚ) (req consec : ℕ) : ℕ × Bool :=
  if consec ≠ req then checkThreshold thr d req consec
  else (consec, false)

/-- Repeated data-timer ticks over a stream of latest-derivative values:
final counter, and whether any tick called `endApproachStage`. -/
def runStream (thr : ℚ) (req : ℕ) (ds : List ℚ) (consec : ℕ) : ℕ × Bool :=
  match ds with
  | [] => (consec, false)
  | d :: rest =>
    let s := dataLoopCheck thr d req consec
    let r := runStream thr req rest s.1
    (r.1, s.2 || r.2)

/-! ## Approach acquisition: `approachUI.__acquireData`

`self.data` holds (timestamp, value) columns, `self.der_arr` the
derivatives.  Timestamps advance by `0.2 / rate` (the hardware clock is
`5 * rate`).  The backward loop `for i in range(-1, -size, -1)` fills
derivative entries `size-1 … 1`; entry `0` is written only in the
cross-chunk branch, so on the first chunk it keeps its `np.zeros`
value `0`.  A later empty read (`len(data_n) == 0` with data already
present) hits `der_arr_n[0]` on an empty array, an `IndexError`,
modelled as `none`. -/

/-- The approach acquisition state: `(self.data, self.der_arr)`. -/
structure AcqState where
  data : List (ℚ × ℚ)
  der_arr : List ℚ
deriving DecidableEq, Repr

/-- `approachUI.__acquireData` for one chunk of fresh samples. -/
def acquireData (rate : ℚ) (st : AcqState) (chunk : List ℚ) : Option AcqState :=
  let n := chunk.length
  match h : st.data with
  | [] =>
    let times := (List.range n).map (fun i => (i : ℚ) * (1/5 / rate))
    let ders := (List.range n).map (fun i =>
      if i = 0 then 0
      else (chunk.getD i 0 - chunk.getD (i-1) 0) /
           (times.getD i 0 - times.getD (i-1) 0))
    some ⟨times.zip chunk, st.der_arr ++ ders⟩
  | last :: _ =>
    if n = 0 then none
    else
      let prev := (st.data.getLast (h ▸ List.cons_ne_nil last _))
      let times := (List.range n).map (fun i => ((i : ℚ) + 1) * (1/5 / rate) + prev.1)
      let ders := (List.range n).map (fun i =>
        if i = 0 then (chunk.getD 0 0 - prev.2) / (times.getD 0 0 - prev.1)
        else (chunk.getD i 0 - chunk.getD (i-1) 0) /
             (times.getD i 0 - times.getD (i-1) 0))
      some ⟨st.data ++ times.zip chunk, st.der_arr ++ ders⟩

/-! ## Approach control traces

The bodies of `approachUI.__startApproach`, `ApproachThread.run` and
`ApproachThread.endApproachStage` are straight-line (up to the two
`if`s of `run`/`endApproachStage`); each becomes the ordered list of
externally visible actions it performs. -/

/-- One observable action of the approach module. -/
inductive AEvent where
  | disableTabs
  | disableStartButton
  | setDoc (s : String)
  | setDocStageChange        -- 'Changin to stage {}' (stage-dependent text)
  | setDocInProgress         -- 'Approach stage {} in progress'
  | snapshot
  | writeModeStp             -- anc.write_mode(z, 'stp')
  | writeOffset              -- sr.write_offset('1')
  | dumpApproachData         -- self.__dumpData()
  | initConsecToReq          -- self.consec = self.av.consec_req
  | resetStage               -- self.approach.stage = -1
  | makeReadTask
  | configContinuousClock
  | readTaskStart
  | dataTimerStart
  | approachThreadStart      -- self.approach.start(), i.e. run() begins
  | backoffSteps             -- anc.step_down_and_wait(z, steps)
  | advanceStage             -- self.stage += 1
  | writeVolt                -- anc.write_volt(z, voltages[stage])
  | writeFreq                -- anc.write_freq(z, frequencies[stage])
  | sleep5                   -- sleep(5)
  | clearConsec              -- self.win.consec = 0
  | stepContinuousUp         -- anc.step_up(z, 'c')
  | terminateThread
  | stopAxis                 -- anc.stop_axis(z)
  | dataTimerStop
  | closeReadTask
  | enableStartButton
  | enableTabs
deriving DecidableEq, Repr

/-- The body of `approachUI.__startApproach`, in program order. -/
def startApproachTrace : List AEvent :=
  [.disableTabs, .disableStartButton, .setDoc "Preaparing approach...",
   .snapshot, .writeModeStp, .writeOffset, .dumpApproachData,
   .initConsecToReq, .resetStage, .makeReadTask, .configContinuousClock,
   .readTaskStart, .dataTimerStart, .approachThreadStart]

/-- The body of `ApproachThread.run`; `first` is `stage == -1`
(no earlier stage, so no back-off). -/
def approachRunTrace (first : Bool) : List AEvent :=
  [.setDocStageChange] ++
  (if first then [] else [.setDoc "Backing off a bit...", .backoffSteps]) ++
  [.advanceStage, .writeVolt, .writeFreq,
   .setDoc "Stabilisation sleep...", .sleep5, .clearConsec,
   .stepContinuousUp, .setDocInProgress]

/-- The body of `ApproachThread.endApproachStage`; `stage` and `stages`
are `self.stage` and `self.av.approach_stages`, `hasTask` is
`hasattr(self.win, 'read_task')`. -/
def endApproachStage (stage : ℤ) (stages : ℕ) (end_all hasTask : Bool) :
    List AEvent :=
  [.terminateThread, .stopAxis] ++
  (if stage + 1 < (stages : ℤ) ∧ end_all = false then
    [.approachThreadStart]
  else
    [.dataTimerStop] ++ (if hasTask then [.closeReadTask] else []) ++
    [.setDoc (if end_all then "Approach stopped" else "Approach complete"),
     .enableStartButton, .enableTabs])

/-! ## Line-scan trace: `ScanLineThread.run`

The body up to entering the Qt event loop is straight-line; it becomes
the ordered list of its actions.  `set_start_trigger(write_task,
read_task)` configures the write task to start on the digital edge
`/<device>/ai/StartTrigger` of the read task
(`NIpci6036E.set_start_trigger`). -/

/-- The two DAQ tasks of a line scan. -/
inductive STask where
  | writeTask
  | readTask
deriving DecidableEq, Repr

/-- One observable action of `ScanLineThread.run`. -/
inductive SEvent where
  | dumpAllData                       -- self.win.dumpData()
  | makeWriteTask
  | setFiniteClock                    -- samps = len(linx) * len(liny) + 1
  | setStartTrigger (target source : STask)
  | makeWriter
  | primeFirstTwoRows                 -- write rows 0 and 1 before starting
  | taskStart (t : STask)
  | setupWriteTimer
  | setupWaitTimer
  | waitTimerStart
  | writeTimerStart
  | enterEventLoop
deriving DecidableEq, Repr

/-- The digital start-trigger source terminal used by
`NIpci6036E.set_start_trigger`: the origin (read) task's start event. -/
def startTriggerTerminal (device : String) : String :=
  "/" ++ device ++ "/ai/StartTrigger"

/-- The total sample count configured on the write task's finite clock:
`len(self.sv.linx) * len(self.sv.liny) + 1`. -/
def finiteClockSamps (rowLen rows : ℕ) : ℕ := rowLen * rows + 1

/-- The body of `ScanLineThread.run`, in program order, up to entering
the event loop. -/
def scanLineRunTrace : List SEvent :=
  [.dumpAllData, .makeWriteTask, .setFiniteClock,
   .setStartTrigger .writeTask .readTask, .makeWriter, .primeFirstTwoRows,
   .taskStart .writeTask, .taskStart .readTask,
   .setupWriteTimer, .setupWaitTimer, .waitTimerStart, .writeTimerStart,
   .enterEventLoop]

/-! ## Helper lemmas -/

/-- A data-timer tick leaves a counter that already sits at `consec_req`
untouched and never fires: `__dataLoop` skips `__checkThreshold` then. -/
theorem runStream_fixed (thr : ℚ) (req : ℕ) (ds : List ℚ) :
    runStream thr req ds req = (req, false) := by
  induction ds with
  | nil => rfl
  | cons d rest ih => simp [runStream, dataLoopCheck, ih]

/-- From any counter strictly below the requirement (and with the check
active, i.e. counter ≠ requirement), a tick stream fires exactly when the
final counter value is the requirement. -/
theorem runStream_fires_iff_aux (thr : ℚ) (req : ℕ) (hreq : 0 < req) :
    ∀ (ds : List ℚ) (c : ℕ), c ≠ req →
      ((runStream thr req ds c).2 = true ↔ (runStream thr req ds c).1 = req) := by
  intro ds
  induction ds with
  | nil => intro c hc; simpa [runStream] using hc
  | cons d rest ih =>
    intro c hc
    by_cases hd : d < thr
    · by_cases hfire : c + 1 = req
      · simp [runStream, dataLoopCheck, checkThreshold, hc, hd, hfire,
              runStream_fixed]
      · have hbeq : (c + 1 == req) = false := by simp [hfire]
        simp only [runStream, dataLoopCheck, if_pos hc, checkThreshold,
                   if_pos hd, hbeq, Bool.false_or]
        exact ih (c + 1) hfire
    · have h0 : (0 : ℕ) ≠ req := by omega
      simp only [runStream, dataLoopCheck, if_pos hc, checkThreshold,
                 if_neg hd, Bool.false_or]
      exact ih 0 h0

/-! ## Claims -/

/-- C1: while an approach stage's check is active, each processed
derivative sample below the stage threshold increments the
consecutive-hit counter (firing `endApproachStage` exactly when the
counter reaches `consec_req`), any sample not below it resets the
counter to zero, and across any processed sample stream started at
counter 0 a completion fires if and only if the counter reaches
`consec_req`. -/
theorem approach_debounce_invariant (thr : ℚ) (req : ℕ) (hreq : 0 < req) :
    (∀ (d : ℚ) (c : ℕ), c ≠ req →
       (d < thr → dataLoopCheck thr d req c = (c + 1, c + 1 == req)) ∧
       (¬ d < thr → dataLoopCheck thr d req c = (0, false))) ∧
    (∀ ds : List ℚ,
       ((runStream thr req ds 0).2 = true ↔ (runStream thr req ds 0).1 = req)) := by
  constructor
  · intro d c hc
    constructor
    · intro hd; simp [dataLoopCheck, checkThreshold, hc, hd]
    · intro hd; simp [dataLoopCheck, checkThreshold, hc, hd]
  · intro ds
    exact runStream_fires_iff_aux thr req hreq ds 0 (by omega)

/-- Witness for C1: the spec's own scenario (threshold −5·10⁻⁷,
`consec_req = 3`, derivatives `[−6·10⁻⁷, −6·10⁻⁷, −6·10⁻⁷]`) fires, and
it fires exactly because the counter reaches 3. -/
theorem approach_debounce_invariant_witness :
    (0 < 3) ∧
    (runStream (-5/10000000 : ℚ) 3 [-6/10000000, -6/10000000, -6/10000000] 0).1 = 3 ∧
    (runStream (-5/10000000 : ℚ) 3 [-6/10000000, -6/10000000, -6/10000000] 0).2 = true := by
  refine ⟨by norm_num, ?_, ?_⟩
  · norm_num [runStream, dataLoopCheck, checkThreshold]
  · exact ((approach_debounce_invariant (-5/10000000) 3 (by norm_num)).2
      [-6/10000000, -6/10000000, -6/10000000]).mpr
      (by norm_num [runStream, dataLoopCheck, checkThreshold])

/-- C2: a forced stop (`endApproachStage` with `end_all=True`) during
stage 1 (`stage = 0`) of a 2-stage approach halts axis motion, stops the
data timer, closes the read task, reports 'Approach stopped' (distinct
from 'Approach complete'), and never restarts the approach thread — so
the back-off and stage 2, which live in `ApproachThread.run`, are never
reached. -/
theorem forced_stop_stage1 :
    endApproachStage 0 2 true true =
      [.terminateThread, .stopAxis, .dataTimerStop, .closeReadTask,
       .setDoc "Approach stopped", .enableStartButton, .enableTabs] ∧
    (∀ e ∈ endApproachStage 0 2 true true,
       e ≠ AEvent.approachThreadStart ∧ e ≠ AEvent.backoffSteps ∧
       e ≠ AEvent.writeVolt ∧ e ≠ AEvent.writeFreq ∧
       e ≠ AEvent.setDoc "Approach complete") ∧
    "Approach stopped" ≠ "Approach complete" := by
  refine ⟨by decide, by decide, by decide⟩

/-- C3: in `ScanLineThread.run` the write (output) task is started
strictly before the read (input) task, each is started exactly once, and
before either start the write task is configured with a digital start
trigger sourced from the read task's start event
(`/<device>/ai/StartTrigger`). -/
theorem trigger_ordering :
    scanLineRunTrace.indexOf (.taskStart .writeTask) <
      scanLineRunTrace.indexOf (.taskStart .readTask) ∧
    scanLineRunTrace.count (.taskStart .writeTask) = 1 ∧
    scanLineRunTrace.count (.taskStart .readTask) = 1 ∧
    scanLineRunTrace.indexOf (.setStartTrigger .writeTask .readTask) <
      scanLineRunTrace.indexOf (.taskStart .writeTask) ∧
    (SEvent.setStartTrigger .writeTask .readTask) ∈ scanLineRunTrace ∧
    startTriggerTerminal "Dev1" = "/Dev1/ai/StartTrigger" := by
  refine ⟨by decide, by decide, by decide, by decide, by simp [scanLineRunTrace], rfl⟩

/-- `linspace` always yields exactly `n` values. -/
theorem linspace_length (l u : ℚ) (n : ℕ) : (linspace l u n).length = n := by
  unfold linspace
  split
  · rw [List.length_replicate]
  · rw [List.length_map, List.length_range]

/-- Repeating each element `r` times multiplies the length by `r`. -/
theorem length_flatMap_replicate {α : Type} (r : ℕ) (l : List α) :
    (l.flatMap (List.replicate r)).length = l.length * r := by
  induction l with
  | nil => simp
  | cons a t ih => simp [ih, Nat.succ_mul, Nat.add_comm]

/-- On non-negative step counts and a non-negative repeat count,
`stepData` takes none of its error exits and returns the repeated
forward sweep, its reverse, and the y line. -/
theorem stepData_eq (lowervx uppervx : ℚ) (xsteps : ℤ) (lowervy uppervy : ℚ)
    (ysteps : ℤ) (settle data_rate : ℚ)
    (hx : 0 ≤ xsteps) (hy : 0 ≤ ysteps) (hr : 0 ≤ ratTrunc (settle * data_rate)) :
    stepData lowervx uppervx xsteps lowervy uppervy ysteps settle data_rate =
      some
        ((linspace lowervx uppervx xsteps.toNat).flatMap
            (List.replicate (ratTrunc (settle * data_rate)).toNat) ++
          ((linspace lowervx uppervx xsteps.toNat).flatMap
            (List.replicate (ratTrunc (settle * data_rate)).toNat)).reverse,
         linspace lowervy uppervy ysteps.toNat) := by
  rw [stepData, if_neg (not_lt.mpr hx), if_neg (not_lt.mpr hr), if_neg (not_lt.mpr hy)]

/-- C4 counterexample: `stepData` called with `xSteps = 1 < 2` (all
other parameters well-formed) does not fail at all — there is no
`InvalidRegion` rejection in the code. -/
theorem stepData_no_invalid_region_counterexample :
    (stepData 0 7 1 0 7 21 (1/2) 100).isSome = true := by
  rw [stepData_eq] <;> norm_num [ratTrunc]

/-- C4 (amended): `stepData` performs no region validation: whenever
the step counts and the truncated repeat count `settle * data_rate` are
merely non-negative — including `xSteps = 1`, `settleTime ≤ 0` or
`sampleRate ≤ 0` — it returns a (possibly degenerate or empty) waveform
without any error. -/
theorem stepData_no_validation (lowervx uppervx : ℚ) (xsteps : ℤ)
    (lowervy uppervy : ℚ) (ysteps : ℤ) (settle data_rate : ℚ)
    (hx : 0 ≤ xsteps) (hy : 0 ≤ ysteps) (hr : 0 ≤ ratTrunc (settle * data_rate)) :
    (stepData lowervx uppervx xsteps lowervy uppervy ysteps settle data_rate).isSome
      = true := by
  rw [stepData_eq lowervx uppervx xsteps lowervy uppervy ysteps settle data_rate
      hx hy hr]
  rfl

/-- Witness for C4's amended claim: `settleTime = 0` (≤ 0) is accepted,
returning an empty x sequence rather than an `InvalidRegion` failure. -/
theorem stepData_no_validation_witness :
    ((0:ℤ) ≤ 21) ∧ (0 ≤ ratTrunc ((0:ℚ) * 100)) ∧
    (stepData 0 7 21 0 7 21 0 100).isSome = true :=
  ⟨by norm_num, by norm_num [ratTrunc],
   stepData_no_validation 0 7 21 0 7 21 0 100 (by norm_num) (by norm_num)
     (by norm_num [ratTrunc])⟩

/-- C5 counterexample: with `settle * rate = 3/2` the code repeats each
linspace value `trunc(3/2) = 1` time, not `round(3/2) = 2` times as the
claim states: the per-row length is 4, not `2 * xSteps * round(3/2) = 8`. -/
theorem stepData_round_counterexample :
    (∃ xs ys, stepData 0 1 2 0 1 1 (3/2) 1 = some (xs, ys) ∧ xs.length = 4) ∧
    2 * 2 * (round ((3:ℚ)/2 * 1)).toNat = 8 ∧ (4:ℕ) ≠ 8 := by
  refine ⟨⟨_, _, stepData_eq 0 1 2 0 1 1 (3/2) 1 (by norm_num) (by norm_num)
      (by norm_num [ratTrunc]), ?_⟩, ?_, by norm_num⟩
  · have h2 : (ratTrunc ((3:ℚ)/2 * 1)).toNat = 1 := by
      norm_num [ratTrunc]
    rw [List.length_append, List.length_reverse, length_flatMap_replicate,
        linspace_length, h2]
    decide
  · have hround : round ((3:ℚ)/2 * 1) = 2 := by
      norm_num [round_eq]
    rw [hround]
    decide

/-- C5 (amended): for `xSteps ≥ 2`, `ySteps ≥ 0`, `settleTime > 0`,
`sampleRate > 0`, the x sequence is the `xSteps` linspace values each
repeated `trunc(settleTime * sampleRate)` times (truncation, not
rounding — they agree whenever `settleTime * sampleRate` is an integer,
as in the spec's 0.5 × 100 scenario), followed by the exact reverse of
that sweep, for a per-row length of
`2 * xSteps * trunc(settleTime * sampleRate)`. -/
theorem stepData_row_structure (lowervx uppervx : ℚ) (xsteps : ℤ)
    (lowervy uppervy : ℚ) (ysteps : ℤ) (settle data_rate : ℚ)
    (hx : 2 ≤ xsteps) (hy : 0 ≤ ysteps) (hs : 0 < settle) (hr : 0 < data_rate) :
    ∃ xs ys,
      stepData lowervx uppervx xsteps lowervy uppervy ysteps settle data_rate =
        some (xs, ys) ∧
      xs = (linspace lowervx uppervx xsteps.toNat).flatMap
             (List.replicate (ratTrunc (settle * data_rate)).toNat) ++
           ((linspace lowervx uppervx xsteps.toNat).flatMap
             (List.replicate (ratTrunc (settle * data_rate)).toNat)).reverse ∧
      xs.length = 2 * xsteps.toNat * (ratTrunc (settle * data_rate)).toNat := by
  have hrep : 0 ≤ ratTrunc (settle * data_rate) := by
    have hpos : 0 ≤ settle * data_rate := le_of_lt (mul_pos hs hr)
    simp only [ratTrunc, if_pos hpos]
    exact Int.floor_nonneg.mpr hpos
  refine ⟨_, _, stepData_eq lowervx uppervx xsteps lowervy uppervy ysteps settle
    data_rate (by omega) hy hrep, rfl, ?_⟩
  rw [List.length_append, List.length_reverse, length_flatMap_replicate,
      linspace_length]
  ring

/-- Witness for C5: the spec's scenario — lowerX=0, upperX=7, xSteps=21,
settle=0.5, rate=100 — gives a per-row x-sequence length of 2100. -/
theorem stepData_row_structure_witness :
    ((2:ℤ) ≤ 21) ∧ ((0:ℚ) < 1/2) ∧ ((0:ℚ) < 100) ∧
    ∃ xs ys, stepData 0 7 21 0 7 21 (1/2) 100 = some (xs, ys) ∧
      xs.length = 2100 := by
  refine ⟨by norm_num, by norm_num, by norm_num, ?_⟩
  obtain ⟨xs, ys, heq, -, hlen⟩ :=
    stepData_row_structure 0 7 21 0 7 21 (1/2) 100 (by norm_num) (by norm_num)
      (by norm_num) (by norm_num)
  refine ⟨xs, ys, heq, ?_⟩
  rw [hlen]
  have h50 : ratTrunc ((1:ℚ)/2 * 100) = 50 := by norm_num [ratTrunc]
  rw [h50]
  decide

/-- Membership in a non-degenerate `linspace`. -/
theorem mem_linspace (l u : ℚ) (n : ℕ) (hn : 2 ≤ n) (x : ℚ) :
    x ∈ linspace l u n ↔
      ∃ i : ℕ, i < n ∧ x = l + (u - l) * (i : ℚ) / ((n : ℚ) - 1) := by
  rw [linspace, if_neg (by omega : ¬ n ≤ 1)]
  simp only [List.mem_map, List.mem_range]
  constructor
  · rintro ⟨i, hi, rfl⟩; exact ⟨i, hi, rfl⟩
  · rintro ⟨i, hi, rfl⟩; exact ⟨i, hi, rfl⟩

/-- The lower bound is the first `linspace` value. -/
theorem left_mem_linspace (l u : ℚ) (n : ℕ) (hn : 2 ≤ n) : l ∈ linspace l u n := by
  rw [mem_linspace l u n hn]
  exact ⟨0, by omega, by simp⟩

/-- The upper bound is the last `linspace` value. -/
theorem right_mem_linspace (l u : ℚ) (n : ℕ) (hn : 2 ≤ n) : u ∈ linspace l u n := by
  rw [mem_linspace l u n hn]
  refine ⟨n - 1, by omega, ?_⟩
  have h2 : (2 : ℚ) ≤ (n : ℚ) := by exact_mod_cast hn
  have hne : ((n : ℚ) - 1) ≠ 0 := by linarith
  have hcast : ((n - 1 : ℕ) : ℚ) = (n : ℚ) - 1 := by
    have h1 : (1 : ℕ) ≤ n := by omega
    push_cast [h1]
    ring
  rw [hcast, mul_div_assoc, div_self hne, mul_one]
  ring

/-- Every `linspace` value lies between the bounds. -/
theorem linspace_bounds (l u : ℚ) (n : ℕ) (hn : 2 ≤ n) (hlu : l ≤ u) (x : ℚ)
    (hx : x ∈ linspace l u n) : l ≤ x ∧ x ≤ u := by
  rw [mem_linspace l u n hn] at hx
  obtain ⟨i, hi, rfl⟩ := hx
  have h2 : (2 : ℚ) ≤ (n : ℚ) := by exact_mod_cast hn
  have hpos : (0 : ℚ) < (n : ℚ) - 1 := by linarith
  have hiq : (i : ℚ) ≤ (n : ℚ) - 1 := by
    have : (i : ℚ) + 1 ≤ (n : ℚ) := by exact_mod_cast Nat.succ_le_of_lt hi
    linarith
  constructor
  · have :=
      div_nonneg (mul_nonneg (sub_nonneg.mpr hlu) (Nat.cast_nonneg i)) hpos.le
    linarith
  · have hmul : (u - l) * (i : ℚ) ≤ (u - l) * ((n : ℚ) - 1) :=
      mul_le_mul_of_nonneg_left hiq (sub_nonneg.mpr hlu)
    have hdiv : (u - l) * (i : ℚ) / ((n : ℚ) - 1) ≤ u - l := by
      rw [div_le_iff₀ hpos]
      linarith
    linarith

/-- With distinct bounds the `linspace` values are pairwise distinct. -/
theorem linspace_nodup (l u : ℚ) (n : ℕ) (hn : 2 ≤ n) (hlu : l < u) :
    (linspace l u n).Nodup := by
  rw [linspace, if_neg (by omega : ¬ n ≤ 1)]
  refine List.Nodup.map ?_ (List.nodup_range n)
  intro i j hij
  have h2 : (2 : ℚ) ≤ (n : ℚ) := by exact_mod_cast hn
  have hne : ((n : ℚ) - 1) ≠ 0 := by linarith
  have hul : (u - l) ≠ 0 := ne_of_gt (sub_pos.mpr hlu)
  field_simp at hij
  rcases hij with h | h
  · exact_mod_cast h
  · exact absurd h hul

/-- With a non-zero repeat count, the forward-plus-reversed row contains
exactly the `linspace` values. -/
theorem mem_row_iff {r : ℕ} (hr : r ≠ 0) (lin : List ℚ) (x : ℚ) :
    (x ∈ lin.flatMap (List.replicate r) ++ (lin.flatMap (List.replicate r)).reverse)
      ↔ x ∈ lin := by
  simp [List.mem_append, List.mem_reverse, List.mem_flatMap,
        List.mem_replicate, hr]

/-- C6 counterexample: the region lowerX=0, upperX=7, xSteps=21,
settle=0.5, rate=1 satisfies every validity condition of the claim
(lowerX < upperX, xSteps ≥ 2, settleTime > 0, sampleRate > 0), yet the
repeat count truncates to 0, the x sequence is empty, and nothing can be
recovered from it. -/
theorem stepData_roundtrip_counterexample :
    (stepData 0 7 21 0 7 21 (1/2) 1).map Prod.fst = some [] ∧
    ([] : List ℚ).min? = none ∧ ([] : List ℚ).toFinset.card ≠ 21 := by
  refine ⟨?_, rfl, by decide⟩
  rw [stepData_eq 0 7 21 0 7 21 (1/2) 1 (by norm_num) (by norm_num)
      (by norm_num [ratTrunc])]
  have h0 : (ratTrunc ((1:ℚ)/2 * 1)).toNat = 0 := by norm_num [ratTrunc]
  have hfw : (linspace (0:ℚ) 7 (Int.toNat 21)).flatMap
      (List.replicate (ratTrunc ((1:ℚ)/2 * 1)).toNat) = [] := by
    rw [← List.length_eq_zero, length_flatMap_replicate, h0, Nat.mul_zero]
  rw [hfw]
  rfl

/-- C6 (amended): for a valid region whose repeat count
`trunc(settleTime * sampleRate)` is at least 1 (the truncation can be 0
even with settleTime > 0 and sampleRate > 0, which empties the
sequence), the minimum, maximum and distinct-value count of the
generated x sequence recover lowerX, upperX and xSteps exactly, and
re-calling `stepData` with the same arguments yields an identical
result. -/
theorem stepData_roundtrip (lowervx uppervx : ℚ) (xsteps : ℤ)
    (lowervy uppervy : ℚ) (ysteps : ℤ) (settle data_rate : ℚ)
    (hlu : lowervx < uppervx) (hx : 2 ≤ xsteps) (hy : 0 ≤ ysteps)
    (hs : 0 < settle) (hr : 0 < data_rate)
    (hreps : 1 ≤ ratTrunc (settle * data_rate)) :
    ∃ xs ys,
      stepData lowervx uppervx xsteps lowervy uppervy ysteps settle data_rate =
        some (xs, ys) ∧
      xs.min? = some lowervx ∧ xs.max? = some uppervx ∧
      xs.toFinset.card = xsteps.toNat ∧
      stepData lowervx uppervx xsteps lowervy uppervy ysteps settle data_rate =
        stepData lowervx uppervx xsteps lowervy uppervy ysteps settle data_rate := by
  have hN : 2 ≤ xsteps.toNat := by omega
  have hrne : (ratTrunc (settle * data_rate)).toNat ≠ 0 := by omega
  have hmem : ∀ x : ℚ,
      (x ∈ (linspace lowervx uppervx xsteps.toNat).flatMap
          (List.replicate (ratTrunc (settle * data_rate)).toNat) ++
        ((linspace lowervx uppervx xsteps.toNat).flatMap
          (List.replicate (ratTrunc (settle * data_rate)).toNat)).reverse)
      ↔ x ∈ linspace lowervx uppervx xsteps.toNat :=
    fun x => mem_row_iff hrne _ x
  haveI : Std.Antisymm ((· : ℚ) ≤ ·) := ⟨fun {a b} h h' => le_antisymm h h'⟩
  refine ⟨_, _, stepData_eq lowervx uppervx xsteps lowervy uppervy ysteps settle
    data_rate (by omega) hy (by omega), ?_, ?_, ?_, rfl⟩
  · rw [List.min?_eq_some_iff (fun a => le_refl a) (fun a b => min_choice a b)
        (fun a b c => le_min_iff)]
    refine ⟨(hmem lowervx).mpr (left_mem_linspace _ _ _ hN), fun b hb => ?_⟩
    exact (linspace_bounds lowervx uppervx xsteps.toNat hN hlu.le b
      ((hmem b).mp hb)).1
  · rw [List.max?_eq_some_iff (fun a => le_refl a) (fun a b => max_choice a b)
        (fun a b c => max_le_iff)]
    refine ⟨(hmem uppervx).mpr (right_mem_linspace _ _ _ hN), fun b hb => ?_⟩
    exact (linspace_bounds lowervx uppervx xsteps.toNat hN hlu.le b
      ((hmem b).mp hb)).2
  · have hset : ((linspace lowervx uppervx xsteps.toNat).flatMap
        (List.replicate (ratTrunc (settle * data_rate)).toNat) ++
        ((linspace lowervx uppervx xsteps.toNat).flatMap
          (List.replicate (ratTrunc (settle * data_rate)).toNat)).reverse).toFinset
        = (linspace lowervx uppervx xsteps.toNat).toFinset := by
      ext a
      simp only [List.mem_toFinset]
      exact hmem a
    rw [hset, List.toFinset_card_of_nodup
        (linspace_nodup lowervx uppervx xsteps.toNat hN hlu), linspace_length]

/-- Witness for C6's amended claim: region lowerX=0, upperX=1, xSteps=2,
settle=1, rate=1 (repeat count 1) round-trips: min 0, max 1, two
distinct values. -/
theorem stepData_roundtrip_witness :
    ((0:ℚ) < 1) ∧ ((2:ℤ) ≤ 2) ∧ (1 ≤ ratTrunc ((1:ℚ) * 1)) ∧
    ∃ xs ys, stepData 0 1 2 0 1 1 1 1 = some (xs, ys) ∧
      xs.min? = some 0 ∧ xs.max? = some 1 ∧ xs.toFinset.card = (2:ℤ).toNat := by
  refine ⟨by norm_num, by norm_num, by norm_num [ratTrunc], ?_⟩
  obtain ⟨xs, ys, h1, h2, h3, h4, -⟩ :=
    stepData_roundtrip 0 1 2 0 1 1 1 1 (by norm_num) (by norm_num) (by norm_num)
      (by norm_num) (by norm_num) (by norm_num [ratTrunc])
  exact ⟨xs, ys, h1, h2, h3, h4⟩

/-- C7 counterexample: with only one time-column buffered, extracting
`n = 3` columns does not fail — numpy slicing clamps, so the single
column is returned (as a `some` result) and the buffer is emptied;
there is no `InsufficientData` error. -/
theorem extractFirst_no_failure_counterexample :
    dumpData ⟨2, [[1, 2]]⟩ 3 = (some ⟨2, [[1, 2]]⟩, ⟨2, []⟩) ∧
    (Buffer.cols ⟨2, [[(1:ℚ), 2]]⟩).length < 3 ∧
    (dumpData ⟨2, [[1, 2]]⟩ 3).1.isSome = true := by
  refine ⟨?_, by decide, ?_⟩ <;> simp [dumpData]

/-- C7 (amended): for `n > 0`, `dumpData` atomically returns the first
`min(n, length)` time-columns and keeps the rest: when at least `n`
columns are present the returned chunk has exactly `n` columns, and when
fewer are present it silently returns all of them rather than failing. -/
theorem extractFirst_clamps (b : Buffer) (n : ℕ) (hn : 0 < n) :
    dumpData b n =
      (some ⟨b.channels, b.cols.take n⟩, ⟨b.channels, b.cols.drop n⟩) ∧
    (n ≤ b.cols.length → (b.cols.take n).length = n) ∧
    b.cols.take n ++ b.cols.drop n = b.cols := by
  refine ⟨by simp [dumpData, Nat.pos_iff_ne_zero.mp hn], fun h => ?_,
    List.take_append_drop n b.cols⟩
  rw [List.length_take]
  omega

/-- Witness for C7's amended claim: extracting 2 of 3 buffered columns
returns exactly the first 2 and keeps the third. -/
theorem extractFirst_clamps_witness :
    0 < 2 ∧
    dumpData ⟨1, [[5], [6], [7]]⟩ 2 = (some ⟨1, [[5], [6]]⟩, ⟨1, [[7]]⟩) := by
  refine ⟨by norm_num, ?_⟩
  have h := (extractFirst_clamps ⟨1, [[5], [6], [7]]⟩ 2 (by norm_num)).1
  simpa using h

/-- C8: calling `dumpData` with its default `chunk = 0` does not extract
zero columns — it resets the buffer to an empty channels × 0 array and
returns `None` (not an empty chunk). -/
theorem dumpData_zero_clears (b : Buffer) :
    dumpData b 0 = (none, ⟨b.channels, []⟩) ∧
    (dumpData b 0).2.cols = [] ∧
    (dumpData b 0).2.channels = b.channels ∧
    ∀ c : Buffer, (dumpData b 0).1 ≠ some c := by
  refine ⟨rfl, rfl, rfl, fun c => by simp [dumpData]⟩

/-- C9: `__startApproach` sets the counter to `consec_req` before the
data timer and the approach thread start (and never clears it to 0);
`ApproachThread.run` clears it to 0 only after the stage voltage and
frequency are written and the 5 s stabilisation sleep finishes; and
while the counter equals `consec_req`, data-timer ticks never fire a
stage completion, whatever derivative samples arrive — so no completion
can fire during preparation, back-off, or stabilisation. -/
theorem consec_req_gates_completion (first : Bool) (thr : ℚ) (req : ℕ)
    (ds : List ℚ) :
    startApproachTrace.indexOf .initConsecToReq <
      startApproachTrace.indexOf .dataTimerStart ∧
    startApproachTrace.indexOf .initConsecToReq <
      startApproachTrace.indexOf .approachThreadStart ∧
    (∀ e ∈ startApproachTrace, e ≠ AEvent.clearConsec) ∧
    (approachRunTrace first).indexOf .writeVolt <
      (approachRunTrace first).indexOf .clearConsec ∧
    (approachRunTrace first).indexOf .writeFreq <
      (approachRunTrace first).indexOf .clearConsec ∧
    (approachRunTrace first).indexOf .sleep5 <
      (approachRunTrace first).indexOf .clearConsec ∧
    runStream thr req ds req = (req, false) := by
  refine ⟨by decide, by decide, by decide, ?_, ?_, ?_,
    runStream_fixed thr req ds⟩ <;> cases first <;> decide

/-- C10: the derivative slot for the very first acquired sample is never
written by `__acquireData` (the backward loop stops before index 0 and
the cross-chunk branch is skipped on the first chunk), so it keeps its
allocated value 0; against any strictly negative threshold,
`__checkThreshold` on that 0 therefore resets the counter instead of
counting a hit. -/
theorem first_derivative_stays_zero (rate : ℚ) (chunk : List ℚ)
    (h : chunk ≠ []) (thr : ℚ) (req c : ℕ) (hthr : thr < 0) :
    ∃ st, acquireData rate ⟨[], []⟩ chunk = some st ∧
      st.der_arr.head? = some 0 ∧
      checkThreshold thr 0 req c = (0, false) := by
  obtain ⟨a, t, rfl⟩ := List.exists_cons_of_ne_nil h
  refine ⟨_, rfl, ?_, ?_⟩
  · simp [acquireData, List.range_succ_eq_map]
  · rw [checkThreshold, if_neg (not_lt.mpr hthr.le)]

/-- Witness for C10: a first chunk `[3]` at rate 10 Hz leaves the first
derivative at 0, and threshold −5 records no hit on it. -/
theorem first_derivative_stays_zero_witness :
    ([(3:ℚ)] ≠ []) ∧ (-(5:ℚ) < 0) ∧
    ∃ st, acquireData 10 ⟨[], []⟩ [3] = some st ∧
      st.der_arr.head? = some 0 ∧
      checkThreshold (-5) 0 3 0 = (0, false) :=
  ⟨by simp, by norm_num,
   first_derivative_stays_zero 10 [3] (by simp) (-5) 3 0 (by norm_num)⟩

end SSMiSS
